import Mathlib

/-!
Shallow embedding of the rorth interpreter (a Forth-like stack language):
tokens, the parser/resolver (`parse`), the stack machine (`execute`), and the
static stack-safety checker (`check_stack_safety`), translated from
`src/parser.rs`, `src/stack_machine.rs` and `src/checker.rs`.

Conventions of the embedding:
* `i32` values are modelled as `Int`; the machine's arithmetic wraps to the
  32-bit two's-complement range via `wrap32` (release-mode Rust semantics),
  while integer division panics on a zero divisor and on `i32::MIN / -1`
  (Rust panics there in every build mode).
* Rust code that can `panic!` (or hit `todo!()` / an out-of-bounds index) is
  modelled with the `RResult.panic` outcome, distinct from returned errors.
* The executor's `while` loop may diverge, so `execLoop` takes explicit fuel
  and returns `none` only when fuel runs out; `some` verdicts coincide with
  the Rust loop's outcomes.
* `common.rs` in the snapshot lists only `UnknownToken`/`Parse`/`StackEmpty`,
  but `stack_machine.rs` and `checker.rs` construct `Error::FunctionNotFound`
  and `Error::StaticCheck`; the `Error` type here includes the variants as
  used by those files.
-/

namespace Rorth

/-- Error values (`common.rs`, plus the `FunctionNotFound` / `StaticCheck`
variants constructed by `stack_machine.rs` / `checker.rs`). -/
inductive Error where
  | UnknownToken (word : String) (pos line : Nat)
  | Parse (word : String) (pos line : Nat) (comment : String)
  | StackEmpty (pos line : Nat)
  | FunctionNotFound (name : String)
  | StaticCheck (word : String) (pos line : Nat) (comment : String)
deriving DecidableEq, Repr

/-- Outcome of running a piece of Rust code that can return a value, return
an error, or panic (process abort: `panic!`, `todo!`, out-of-bounds index,
integer-division traps). -/
inductive RResult (α : Type) where
  | ok (a : α)
  | err (e : Error)
  | panic (msg : String)
deriving DecidableEq, Repr

/-- Token kinds (`tokenizer.rs` `TokenType`, including the `Identifier`,
`Fun` and `Ret` variants consumed by `parser.rs`). -/
inductive TokenType where
  | Num (n : Int)
  | Pop
  | Add
  | Sub
  | Mul
  | Div
  | Print
  | While
  | End
  | If
  | Else
  | Dup
  | Swap
  | Rot
  | Over
  | Nip
  | Identifier (s : String)
  | Fun
  | Ret
deriving DecidableEq, Repr

/-- `Display for TokenType` (`tokenizer.rs`): the word used in error
messages.  `Identifier s` displays as `s` (observed in the parser's
`test_call`, which expects the word `"test"`); `Fun`/`Ret` display as their
keywords. -/
def tokDisplay : TokenType → String
  | .While => "while"
  | .End => "end"
  | .Num n => toString n
  | .Pop => "pop"
  | .Add => "+"
  | .Sub => "-"
  | .Mul => "*"
  | .Div => "/"
  | .Print => "print"
  | .Dup => "dup"
  | .Swap => "swap"
  | .Rot => "rot"
  | .Over => "over"
  | .Nip => "nip"
  | .If => "if"
  | .Else => "else"
  | .Identifier s => s
  | .Fun => "fun"
  | .Ret => "ret"

/-- A token with its source metadata (`tokenizer.rs` `Token`). -/
structure Token where
  token_type : TokenType
  pos : Nat
  line : Nat
deriving DecidableEq, Repr

/-- Instruction kinds (`parser.rs` `InstructionType`); jump payloads are
indices into the instruction sequence. -/
inductive InstructionType where
  | Push (n : Int)
  | Pop
  | Add
  | Sub
  | Mul
  | Div
  | Print
  | While (t : Nat)
  | EndWhile (t : Nat)
  | If (t : Nat)
  | Else (t : Nat)
  | EndIf
  | Dup
  | Swap
  | Rot
  | Over
  | Nip
  | Call (t : Nat)
  | Ret
deriving DecidableEq, Repr

/-- The `{:?}` (Debug) rendering of an `InstructionType`, used by
`set_jmp_pos`'s error branch. -/
def instrDebug : InstructionType → String
  | .Push n => "Push(" ++ toString n ++ ")"
  | .Pop => "Pop"
  | .Add => "Add"
  | .Sub => "Sub"
  | .Mul => "Mul"
  | .Div => "Div"
  | .Print => "Print"
  | .While t => "While(" ++ toString t ++ ")"
  | .EndWhile t => "EndWhile(" ++ toString t ++ ")"
  | .If t => "If(" ++ toString t ++ ")"
  | .Else t => "Else(" ++ toString t ++ ")"
  | .EndIf => "EndIf"
  | .Dup => "Dup"
  | .Swap => "Swap"
  | .Rot => "Rot"
  | .Over => "Over"
  | .Nip => "Nip"
  | .Call t => "Call(" ++ toString t ++ ")"
  | .Ret => "Ret"

/-- A resolved instruction with its source metadata (`parser.rs`
`Instruction`). -/
structure Instruction where
  instruction_type : InstructionType
  pos : Nat
  line : Nat
deriving DecidableEq, Repr

/-- `Instruction::set_jmp_pos` (`parser.rs`): replace the jump payload of a
`While`/`EndWhile`/`If`/`Else` instruction, keeping `pos`/`line`; any other
kind yields a parse error. -/
def Instruction.set_jmp_pos (self : Instruction) (jmp_pos : Nat) :
    Except Error Instruction :=
  match self.instruction_type with
  | .While _ => .ok { self with instruction_type := .While jmp_pos }
  | .EndWhile _ => .ok { self with instruction_type := .EndWhile jmp_pos }
  | .If _ => .ok { self with instruction_type := .If jmp_pos }
  | .Else _ => .ok { self with instruction_type := .Else jmp_pos }
  | t =>
      .error (.Parse (instrDebug t) self.pos self.line
        "This instruction doesn't support jmp")

/-- A parsed program (`stack_machine.rs` `Program`): the instruction sequence
and the function table.  The `HashMap` is modelled as an association list
where insertion prepends and lookup takes the most recent binding. -/
structure Program where
  instructions : List Instruction
  functions : List (String × Nat)
deriving DecidableEq, Repr

/-- The body of `parse`'s token loop (`parser.rs` lines 104-307).  `tokens`
is the full input (needed for the end-of-input unmatched-opener lookup),
`rest` the tokens not yet consumed, `i` the index of `rest`'s head in
`tokens`, `insts` the instructions emitted so far, `stack` the resolution
stack of opener instruction indices (head = most recently pushed), and
`functions` the function table.

Faithfulness notes, both of which matter for the claims below:
* the back-patches on seeing an `end`/`else` token call `set_jmp_pos(i)`
  with the *token* index `i` (source lines 175 and 195), not the index of
  the just-emitted instruction;
* an `end` whose popped opener is an `If` (an `if` block with no `else`)
  falls into the source's `panic!("Unexpected `end`")` arm.

In the `end`/`else` handlers, the source reads `instructions[opener_idx]`
again after appending the closer; appending leaves that index untouched, so
the embedding reuses the `opener` obtained from the bounds check. -/
def parseAux (tokens : List Token) :
    List Token → Nat → List Instruction → List Nat → List (String × Nat) →
    RResult Program
  | [], _, insts, [], functions => .ok ⟨insts, functions⟩
  | [], _, _, top :: _, _ =>
      match tokens.get? top with
      | none => .err (.Parse "" 0 0 "impossible index")
      | some tok =>
          .err (.Parse (tokDisplay tok.token_type) tok.pos tok.line
            ("This `" ++ tokDisplay tok.token_type ++ "` has no matching end"))
  | token :: rest, i, insts, stack, functions =>
      match token.token_type with
      | .Num n =>
          parseAux tokens rest (i + 1)
            (insts ++ [⟨.Push n, token.pos, token.line⟩]) stack functions
      | .Add =>
          parseAux tokens rest (i + 1)
            (insts ++ [⟨.Add, token.pos, token.line⟩]) stack functions
      | .Sub =>
          parseAux tokens rest (i + 1)
            (insts ++ [⟨.Sub, token.pos, token.line⟩]) stack functions
      | .Mul =>
          parseAux tokens rest (i + 1)
            (insts ++ [⟨.Mul, token.pos, token.line⟩]) stack functions
      | .Div =>
          parseAux tokens rest (i + 1)
            (insts ++ [⟨.Div, token.pos, token.line⟩]) stack functions
      | .Print =>
          parseAux tokens rest (i + 1)
            (insts ++ [⟨.Print, token.pos, token.line⟩]) stack functions
      | .Pop =>
          parseAux tokens rest (i + 1)
            (insts ++ [⟨.Pop, token.pos, token.line⟩]) stack functions
      | .While =>
          parseAux tokens rest (i + 1)
            (insts ++ [⟨.While 0, token.pos, token.line⟩])
            (insts.length :: stack) functions
      | .End =>
          match stack with
          | [] =>
              .err (.Parse (tokDisplay .End) token.pos token.line
                ("Unexpected `" ++ tokDisplay .End ++ "`"))
          | opener_idx :: stack' =>
              match insts.get? opener_idx with
              | none => .panic "index out of bounds"
              | some opener =>
                  match opener.instruction_type with
                  | .While _ =>
                      match opener.set_jmp_pos i with
                      | .ok patched =>
                          parseAux tokens rest (i + 1)
                            ((insts ++
                              [(⟨.EndWhile opener_idx, token.pos,
                                token.line⟩ : Instruction)]).set
                              opener_idx patched)
                            stack' functions
                      | .error e => .err e
                  | .Else _ =>
                      match opener.set_jmp_pos i with
                      | .ok patched =>
                          parseAux tokens rest (i + 1)
                            ((insts ++
                              [(⟨.EndIf, token.pos,
                                token.line⟩ : Instruction)]).set
                              opener_idx patched)
                            stack' functions
                      | .error e => .err e
                  | _ => .panic "Unexpected `end`"
      | .If =>
          parseAux tokens rest (i + 1)
            (insts ++ [⟨.If 0, token.pos, token.line⟩])
            (insts.length :: stack) functions
      | .Else =>
          match stack with
          | [] =>
              .err (.Parse (tokDisplay .Else) token.pos token.line
                ("Unexpected `" ++ tokDisplay .Else ++ "`"))
          | opener_idx :: stack' =>
              match insts.get? opener_idx with
              | none => .panic "index out of bounds"
              | some opener =>
                  match opener.instruction_type with
                  | .If _ =>
                      match opener.set_jmp_pos i with
                      | .ok patched =>
                          parseAux tokens rest (i + 1)
                            ((insts.set opener_idx patched) ++
                              [⟨.Else 0, token.pos, token.line⟩])
                            ((insts.set opener_idx patched).length :: stack')
                            functions
                      | .error e => .err e
                  | _ =>
                      .err (.Parse (tokDisplay .Else) token.pos token.line
                        "This `else` has no matching if")
      | .Dup =>
          parseAux tokens rest (i + 1)
            (insts ++ [⟨.Dup, token.pos, token.line⟩]) stack functions
      | .Swap =>
          parseAux tokens rest (i + 1)
            (insts ++ [⟨.Swap, token.pos, token.line⟩]) stack functions
      | .Rot =>
          parseAux tokens rest (i + 1)
            (insts ++ [⟨.Rot, token.pos, token.line⟩]) stack functions
      | .Over =>
          parseAux tokens rest (i + 1)
            (insts ++ [⟨.Over, token.pos, token.line⟩]) stack functions
      | .Nip =>
          parseAux tokens rest (i + 1)
            (insts ++ [⟨.Nip, token.pos, token.line⟩]) stack functions
      | .Identifier ident =>
          match functions.lookup ident with
          | some entry =>
              parseAux tokens rest (i + 1)
                (insts ++ [⟨.Call entry, token.pos, token.line⟩]) stack
                functions
          | none =>
              .err (.Parse (tokDisplay (.Identifier ident)) token.pos
                token.line "Function not found")
      | .Fun =>
          match rest with
          | t2 :: rest2 =>
              match t2.token_type with
              | .Identifier name =>
                  parseAux tokens rest2 (i + 2) insts stack
                    ((name, insts.length) :: functions)
              | _ =>
                  .err (.Parse "function" token.pos token.line
                    "Function name is missing")
          | [] =>
              .err (.Parse "function" token.pos token.line
                "Function name is missing")
      | .Ret =>
          parseAux tokens rest (i + 1)
            (insts ++ [⟨.Ret, token.pos, token.line⟩]) stack functions

/-- `parse` (`parser.rs`): run the token loop from the start with empty
state. -/
def parse (tokens : List Token) : RResult Program :=
  parseAux tokens tokens 0 [] [] []

/-- The two's-complement wrap of an integer into the `i32` range
`[-2^31, 2^31)`: the value a wrapping 32-bit operation stores. -/
def wrap32 (n : Int) : Int :=
  (n + 2 ^ 31) % 2 ^ 32 - 2 ^ 31

/-- One run of `StackMachine::execute`'s `while` loop
(`stack_machine.rs` lines 121-201), with explicit fuel.  The value stack
`stk` and call stack `cs` have their top at the head; `out` is the output
accumulator (`result`), `idx` the program counter.  `none` means the fuel
ran out before the loop finished (it burns one unit per loop iteration);
any `some` verdict is the Rust loop's own outcome.

Release-mode Rust semantics for `i32`: `+`, `-`, `*` wrap (`wrap32`), while
`/` panics on a zero divisor and on the overflowing `i32::MIN / -1` and
truncates toward zero otherwise (`Int.tdiv`).

The jump instructions assign `idx` and then fall through to the loop's
trailing `idx += 1`, so a taken branch resumes at `target + 1`; only
`Call` and `Ret` (on a non-empty call stack) `continue` past the
increment. -/
def execLoop (insts : List Instruction) :
    Nat → List Int → List Nat → List Int → Nat →
    Option (RResult (List Int))
  | 0, _, _, _, _ => none
  | fuel + 1, stk, cs, out, idx =>
      match insts.get? idx with
      | none => some (.ok out)
      | some instruction =>
          match instruction.instruction_type with
          | .Push n => execLoop insts fuel (n :: stk) cs out (idx + 1)
          | .Pop =>
              match stk with
              | [] =>
                  some (.err (.StackEmpty instruction.pos instruction.line))
              | _ :: s => execLoop insts fuel s cs out (idx + 1)
          | .Add =>
              match stk with
              | a :: b :: s =>
                  execLoop insts fuel (wrap32 (a + b) :: s) cs out (idx + 1)
              | _ =>
                  some (.err (.StackEmpty instruction.pos instruction.line))
          | .Sub =>
              match stk with
              | a :: b :: s =>
                  execLoop insts fuel (wrap32 (b - a) :: s) cs out (idx + 1)
              | _ =>
                  some (.err (.StackEmpty instruction.pos instruction.line))
          | .Mul =>
              match stk with
              | a :: b :: s =>
                  execLoop insts fuel (wrap32 (a * b) :: s) cs out (idx + 1)
              | _ =>
                  some (.err (.StackEmpty instruction.pos instruction.line))
          | .Div =>
              match stk with
              | a :: b :: s =>
                  if a = 0 then some (.panic "attempt to divide by zero")
                  else if b = -(2 ^ 31) ∧ a = -1 then
                    some (.panic "attempt to divide with overflow")
                  else execLoop insts fuel (b.tdiv a :: s) cs out (idx + 1)
              | _ =>
                  some (.err (.StackEmpty instruction.pos instruction.line))
          | .Print =>
              match stk with
              | [] =>
                  some (.err (.StackEmpty instruction.pos instruction.line))
              | v :: s => execLoop insts fuel s cs (out ++ [v]) (idx + 1)
          | .Dup =>
              match stk with
              | [] =>
                  some (.err (.StackEmpty instruction.pos instruction.line))
              | n :: s => execLoop insts fuel (n :: n :: s) cs out (idx + 1)
          | .Swap =>
              match stk with
              | a :: b :: s =>
                  execLoop insts fuel (b :: a :: s) cs out (idx + 1)
              | _ =>
                  some (.err (.StackEmpty instruction.pos instruction.line))
          | .Rot =>
              match stk with
              | a :: b :: c :: s =>
                  execLoop insts fuel (c :: a :: b :: s) cs out (idx + 1)
              | _ =>
                  some (.err (.StackEmpty instruction.pos instruction.line))
          | .Over =>
              match stk with
              | a :: b :: s =>
                  execLoop insts fuel (b :: a :: b :: s) cs out (idx + 1)
              | _ =>
                  some (.err (.StackEmpty instruction.pos instruction.line))
          | .Nip =>
              match stk with
              | x :: _ :: s =>
                  execLoop insts fuel (x :: s) cs out (idx + 1)
              | _ =>
                  some (.err (.StackEmpty instruction.pos instruction.line))
          | .While jmp_pos =>
              match stk with
              | [] =>
                  some (.err (.StackEmpty instruction.pos instruction.line))
              | v :: _ =>
                  if v = 0 then execLoop insts fuel stk cs out (jmp_pos + 1)
                  else execLoop insts fuel stk cs out (idx + 1)
          | .EndWhile jmp_pos =>
              match stk with
              | [] =>
                  some (.err (.StackEmpty instruction.pos instruction.line))
              | v :: _ =>
                  if v ≠ 0 then execLoop insts fuel stk cs out (jmp_pos + 1)
                  else execLoop insts fuel stk cs out (idx + 1)
          | .If jmp_pos =>
              match stk with
              | [] =>
                  some (.err (.StackEmpty instruction.pos instruction.line))
              | v :: _ =>
                  if v = 0 then execLoop insts fuel stk cs out (jmp_pos + 1)
                  else execLoop insts fuel stk cs out (idx + 1)
          | .Else jmp_pos => execLoop insts fuel stk cs out (jmp_pos + 1)
          | .EndIf => execLoop insts fuel stk cs out (idx + 1)
          | .Ret =>
              match cs with
              | jmp_pos :: cs' =>
                  execLoop insts fuel stk cs' out (jmp_pos + 1)
              | [] => some (.ok out)
          | .Call jmp_pos => execLoop insts fuel stk (idx :: cs) out jmp_pos

/-- `StackMachine::execute` (`stack_machine.rs`): look up `"main"` in the
function table, then run the instruction loop from that index with empty
value and call stacks, given `fuel` loop iterations. -/
def execute (fuel : Nat) (program : Program) : Option (RResult (List Int)) :=
  match program.functions.lookup "main" with
  | none => some (.err (.FunctionNotFound "main"))
  | some idx => execLoop program.instructions fuel [] [] [] idx

/-- `check_stack_safety`'s instruction loop (`checker.rs` lines 6-95) with
the running `stack_size` as accumulator, followed by the final
non-negativity check.  `stack_size` is an `i32` in the source, so every
update wraps via `wrap32` (release-mode Rust semantics, the file's
convention; a debug build would abort at ±2^31 instead).  Control-flow and
call/return instructions hit the source's `todo!()` arms. -/
def checkAux : List Instruction → Int → RResult Unit
  | [], stack_size =>
      if stack_size ≥ 0 then .ok () else .err (.StaticCheck "" 0 0 "")
  | instruction :: rest, stack_size =>
      match instruction.instruction_type with
      | .Push _ => checkAux rest (wrap32 (stack_size + 1))
      | .Pop => checkAux rest (wrap32 (stack_size - 1))
      | .Add | .Sub | .Mul | .Div =>
          if stack_size < 2 then .err (.StaticCheck "" 0 0 "")
          else checkAux rest (wrap32 (stack_size - 1))
      | .Print =>
          if stack_size < 1 then .err (.StaticCheck "" 0 0 "")
          else checkAux rest (wrap32 (stack_size - 1))
      | .Dup =>
          if stack_size < 1 then .err (.StaticCheck "" 0 0 "")
          else checkAux rest (wrap32 (stack_size + 1))
      | .Swap =>
          if stack_size < 2 then .err (.StaticCheck "" 0 0 "")
          else checkAux rest stack_size
      | .Rot =>
          if stack_size < 3 then .err (.StaticCheck "" 0 0 "")
          else checkAux rest stack_size
      | .Over =>
          if stack_size < 2 then .err (.StaticCheck "" 0 0 "")
          else checkAux rest stack_size
      | .Nip =>
          if stack_size < 2 then .err (.StaticCheck "" 0 0 "")
          else checkAux rest stack_size
      | _ => .panic "not yet implemented"

/-- `check_stack_safety` (`checker.rs`): run the linear depth simulation
from depth 0. -/
def check_stack_safety (program : List Instruction) : RResult Unit :=
  checkAux program 0

/-! Specification-side definitions, phrased from the spec's words, used to
state the claims. -/

/-- Whether an instruction kind is a `While` (used to state the backward-edge
half of the jump-target invariant). -/
def isWhileInstr : InstructionType → Bool
  | .While _ => true
  | _ => false

/-- The jump-target invariant claimed by the spec for one instruction at
index `j`: `While`/`If`/`Else` targets are valid indices of the sequence,
and an `EndWhile` target is the index of an earlier `While`. -/
def targetOk (l : List Instruction) (j : Nat) : InstructionType → Bool
  | .While t | .If t | .Else t => decide (t < l.length)
  | .EndWhile t =>
      decide (t < j) &&
        (match l.get? t with
         | some op => isWhileInstr op.instruction_type
         | none => false)
  | _ => true

/-- The spec's balanced-block jump-target invariant over a whole instruction
sequence. -/
def jumpTargetsOkB (l : List Instruction) : Bool :=
  l.enum.all fun p => targetOk l p.1 p.2.instruction_type

/-- Instruction kinds whose execution pops or peeks the value stack (and so
must fail on an empty stack): the poppers, plus the peeking branch tests
`While`/`EndWhile`/`If`. -/
def popsOrPeeks : InstructionType → Bool
  | .Pop | .Add | .Sub | .Mul | .Div | .Print | .Dup | .Swap | .Rot
  | .Over | .Nip => true
  | .While _ | .EndWhile _ | .If _ => true
  | _ => false

/-- Control-flow-free instruction kinds: the ones the static checker
supports (everything except `While`/`EndWhile`/`If`/`Else`/`EndIf`/
`Call`/`Ret`). -/
def cfFreeB : InstructionType → Bool
  | .While _ | .EndWhile _ | .If _ | .Else _ | .EndIf | .Call _ | .Ret =>
      false
  | _ => true

/-- Net change of the simulated stack depth for one instruction, per the
spec of the checker: `Push`/`Dup` add 1; `Pop`, `Print` and the binary
arithmetic ops subtract 1; the shuffle ops leave it unchanged. -/
def instrDelta : InstructionType → Int
  | .Push _ => 1
  | .Pop => -1
  | .Add | .Sub | .Mul | .Div => -1
  | .Print => -1
  | .Dup => 1
  | _ => 0

/-- Minimum depth (arity) the claim assigns to an operation: 1 for
`Print`/`Dup`, 2 for binary arithmetic and `Swap`/`Over`/`Nip`, 3 for
`Rot`; `Push` and `Pop` have no arity requirement. -/
def instrArity : InstructionType → Option Int
  | .Add | .Sub | .Mul | .Div => some 2
  | .Print => some 1
  | .Dup => some 1
  | .Swap => some 2
  | .Rot => some 3
  | .Over => some 2
  | .Nip => some 2
  | _ => none

/-- Simulated stack depth after running a whole instruction sequence from
depth 0. -/
def depthAfter (l : List Instruction) : Int :=
  (l.map fun ins => instrDelta ins.instruction_type).sum

/-- Pointwise arity condition of the claim: starting from depth `d`, every
instruction with an arity requirement finds at least that depth. -/
def arityOkFrom : List Instruction → Int → Bool
  | [], _ => true
  | ins :: rest, d =>
      (match instrArity ins.instruction_type with
       | some thr => decide (thr ≤ d)
       | none => true) &&
        arityOkFrom rest (d + instrDelta ins.instruction_type)

/-! Concrete inputs used by the claims. -/

/-- Tokens of `fun f while end`: a function declaration followed by an empty
loop. -/
def c1toks : List Token :=
  [⟨.Fun, 1, 1⟩, ⟨.Identifier "f", 2, 1⟩, ⟨.While, 3, 1⟩, ⟨.End, 4, 1⟩]

/-- The program `parse` produces for `c1toks`: the `While` target 3 is the
token index of the `end`, two past the end of the 2-instruction sequence. -/
def c1prog : Program :=
  ⟨[⟨.While 3, 3, 1⟩, ⟨.EndWhile 0, 4, 1⟩], [("f", 0)]⟩

/-- Tokens of `if end`: an `if` block closed with no `else` in between. -/
def c2toks : List Token :=
  [⟨.If, 1, 1⟩, ⟨.End, 2, 1⟩]

/-- The underflow scenario `Push(2); Push(2); Print; Add` as `main`. -/
def c3prog : Program :=
  ⟨[⟨.Push 2, 1, 1⟩, ⟨.Push 2, 2, 1⟩, ⟨.Print, 3, 1⟩, ⟨.Add, 4, 1⟩],
    [("main", 0)]⟩

/-- Tokens of the loop scenario `3 while 5 print 1 - end`. -/
def c5toks : List Token :=
  [⟨.Num 3, 1, 1⟩, ⟨.While, 2, 1⟩, ⟨.Num 5, 3, 1⟩, ⟨.Print, 4, 1⟩,
   ⟨.Num 1, 5, 1⟩, ⟨.Sub, 6, 1⟩, ⟨.End, 7, 1⟩]

/-- The instruction sequence `parse` produces for `c5toks`. -/
def c5insts : List Instruction :=
  [⟨.Push 3, 1, 1⟩, ⟨.While 6, 2, 1⟩, ⟨.Push 5, 3, 1⟩, ⟨.Print, 4, 1⟩,
   ⟨.Push 1, 5, 1⟩, ⟨.Sub, 6, 1⟩, ⟨.EndWhile 1, 7, 1⟩]

/-- The program `Push(x); Push(y); Sub; Print` as `main`. -/
def subProg (x y : Int) : Program :=
  ⟨[⟨.Push x, 1, 1⟩, ⟨.Push y, 2, 1⟩, ⟨.Sub, 3, 1⟩, ⟨.Print, 4, 1⟩],
    [("main", 0)]⟩

/-- Two unmatched `while` openers at distinct source positions: the outer at
position 1 line 1, the inner at position 5 line 2. -/
def c7toks : List Token :=
  [⟨.While, 1, 1⟩, ⟨.While, 5, 2⟩]

/-- The program `Push(1); Push(0); Div` as `main`: divisor (top of stack)
zero. -/
def c8prog : Program :=
  ⟨[⟨.Push 1, 1, 1⟩, ⟨.Push 0, 2, 1⟩, ⟨.Div, 3, 1⟩], [("main", 0)]⟩

/-- The sequence `Pop; Push(1)`: its simulated depth dips to −1 after the
`Pop` and recovers to 0. -/
def c9cex : List Instruction :=
  [⟨.Pop, 1, 1⟩, ⟨.Push 1, 2, 1⟩]

/-! Claim theorems. -/

/-- C1: the jump-target invariant the spec claims for every successful parse
fails on the code.  On `fun f while end` the parse succeeds, but the `While`
is back-patched with the token index of the `end` (3) instead of an
instruction index, and 3 is not a valid index of the 2-instruction sequence
(the `EndWhile` backward edge 0 is correct).  The cause is
`set_jmp_pos(i)` at `parser.rs` lines 175/195 using the token loop index. -/
theorem c1_jump_target_invariant_violated :
    parse c1toks = .ok c1prog ∧
      jumpTargetsOkB c1prog.instructions = false ∧
      c1prog.instructions.length = 2 := by
  refine ⟨rfl, rfl, rfl⟩

/-- C2: parse does not return an error for every malformed control
structure: an `end` that closes an `if` with no `else` reaches the source's
`panic!("Unexpected `end`")` arm (`parser.rs` line 169) instead of returning
a structural error. -/
theorem c2_end_closing_bare_if_panics :
    parse c2toks = .panic "Unexpected `end`" := by
  rfl

/-- C5: parsing the tokens of `3 while 5 print 1 - end` and executing the
result with `"main"` mapped to instruction index 0 outputs exactly
`[5, 5, 5]`: the loop body runs three times, `While`/`EndWhile` testing the
top of the stack non-destructively. -/
theorem c5_loop_scenario_outputs_5_5_5 :
    parse c5toks = .ok ⟨c5insts, []⟩ ∧
      execute 100 ⟨c5insts, [("main", 0)]⟩ = some (.ok [5, 5, 5]) := by
  refine ⟨rfl, rfl⟩

/-- C6 counterexample: at `x = -2^31`, `y = 1` the program
`Push(x); Push(y); Sub; Print` outputs the wrapped difference `2^31 - 1`,
not the mathematical `x − y = -2^31 - 1`, so the claim's universally
quantified `[x − y]` output fails (a debug build would abort on the same
input instead). -/
theorem c6_sub_output_not_always_x_minus_y :
    execute 10 (subProg (-(2 ^ 31)) 1) = some (.ok [2147483647]) ∧
      (2147483647 : Int) ≠ -(2 ^ 31) - 1 := by
  refine ⟨rfl, by decide⟩

/-- C7 counterexample: with two unmatched `while` openers, the end-of-input
error carries the position and line of the *innermost* opener (position 5,
line 2), not of the outermost one (position 1, line 1) as the claim
states — the source pops the top of the resolution stack. -/
theorem c7_error_names_innermost_not_outermost :
    parse c7toks =
      .err (.Parse "while" 5 2 "This `while` has no matching end") ∧
      c7toks.get? 0 = some ⟨.While, 1, 1⟩ ∧
      Error.Parse "while" 5 2 "This `while` has no matching end" ≠
        Error.Parse "while" 1 1 "This `while` has no matching end" := by
  refine ⟨rfl, rfl, by decide⟩

/-- C8 counterexample: executing a `Div` whose popped divisor is zero makes
the process panic (the host's integer-division trap); no `DivisionByZero`
error value is produced — the error type has no such variant. -/
theorem c8_div_by_zero_panics :
    execute 10 c8prog = some (.panic "attempt to divide by zero") := by
  rfl

/-- C9 counterexample: on `Pop; Push(1)` the simulated depth is −1 after the
`Pop`, yet `check_stack_safety` returns `Ok` — the code never guards `Pop`,
so a transient negative depth is not an immediate failure as the claim
demands. -/
theorem c9_transient_negative_depth_accepted :
    check_stack_safety c9cex = .ok () ∧ depthAfter (c9cex.take 1) < 0 := by
  refine ⟨rfl, by decide⟩

/-- C3: any instruction that pops or peeks, executed on an empty value
stack, fails at once with a stack-empty error carrying that instruction's
position and line; and the scenario `Push(2); Push(2); Print; Add` as
`main` fails at the `Add` (position 4, line 1), the error being returned
(not dropped) with no partial result. -/
theorem c3_empty_stack_pop_peek_fails :
    (∀ (insts : List Instruction) (fuel : Nat) (cs : List Nat)
        (out : List Int) (idx : Nat) (ins : Instruction),
        insts.get? idx = some ins →
        popsOrPeeks ins.instruction_type = true →
        execLoop insts (fuel + 1) [] cs out idx =
          some (.err (.StackEmpty ins.pos ins.line))) ∧
      execute 10 c3prog = some (.err (.StackEmpty 4 1)) := by
  constructor
  · intro insts fuel cs out idx ins h hp
    obtain ⟨it, p, l⟩ := ins
    cases it <;> simp_all [execLoop, popsOrPeeks]
  · rfl

/-- C3 witness: a lone `Pop` at position 9, line 2, run on an empty stack,
fails with `StackEmpty 9 2`; combined with the concrete underflow
scenario. -/
theorem c3_empty_stack_pop_peek_fails_witness :
    execLoop [⟨.Pop, 9, 2⟩] 1 [] [] [] 0 =
      some (.err (.StackEmpty 9 2)) ∧
      execute 10 c3prog = some (.err (.StackEmpty 4 1)) :=
  ⟨c3_empty_stack_pop_peek_fails.1 [⟨.Pop, 9, 2⟩] 0 [] [] 0 ⟨.Pop, 9, 2⟩
      rfl rfl,
    c3_empty_stack_pop_peek_fails.2⟩

/-- C4: `Call(entry)` pushes the current index onto the call stack and
continues at `entry` (no default increment); `Ret` with call-stack top `k`
pops it and continues at `k + 1`; `Ret` with an empty call stack terminates
successfully with the accumulated output. -/
theorem c4_call_ret_semantics :
    (∀ (insts : List Instruction) (fuel : Nat) (stk : List Int)
        (cs : List Nat) (out : List Int) (idx entry p l : Nat),
        insts.get? idx = some ⟨.Call entry, p, l⟩ →
        execLoop insts (fuel + 1) stk cs out idx =
          execLoop insts fuel stk (idx :: cs) out entry) ∧
    (∀ (insts : List Instruction) (fuel : Nat) (stk : List Int)
        (k : Nat) (cs : List Nat) (out : List Int) (idx p l : Nat),
        insts.get? idx = some ⟨.Ret, p, l⟩ →
        execLoop insts (fuel + 1) stk (k :: cs) out idx =
          execLoop insts fuel stk cs out (k + 1)) ∧
    (∀ (insts : List Instruction) (fuel : Nat) (stk : List Int)
        (out : List Int) (idx p l : Nat),
        insts.get? idx = some ⟨.Ret, p, l⟩ →
        execLoop insts (fuel + 1) stk [] out idx = some (.ok out)) := by
  refine ⟨?_, ?_, ?_⟩
  · intro insts fuel stk cs out idx entry p l h
    rw [List.get?_eq_getElem?] at h
    simp [execLoop, h]
  · intro insts fuel stk k cs out idx p l h
    rw [List.get?_eq_getElem?] at h
    simp [execLoop, h]
  · intro insts fuel stk out idx p l h
    rw [List.get?_eq_getElem?] at h
    simp [execLoop, h]

/-- C4 witness: the three `Call`/`Ret` step equations at a concrete
two-instruction program (`Call 1; Ret`). -/
theorem c4_call_ret_semantics_witness :
    execLoop [⟨.Call 1, 1, 1⟩, ⟨.Ret, 2, 1⟩] 3 [] [] [] 0 =
      execLoop [⟨.Call 1, 1, 1⟩, ⟨.Ret, 2, 1⟩] 2 [] [0] [] 1 ∧
    execLoop [⟨.Call 1, 1, 1⟩, ⟨.Ret, 2, 1⟩] 2 [] [0] [] 1 =
      execLoop [⟨.Call 1, 1, 1⟩, ⟨.Ret, 2, 1⟩] 1 [] [] [] 1 ∧
    execLoop [⟨.Call 1, 1, 1⟩, ⟨.Ret, 2, 1⟩] 1 [] [] [] 1 =
      some (.ok []) :=
  ⟨c4_call_ret_semantics.1 [⟨.Call 1, 1, 1⟩, ⟨.Ret, 2, 1⟩] 2 [] [] [] 0 1 1 1
      rfl,
    c4_call_ret_semantics.2.1 [⟨.Call 1, 1, 1⟩, ⟨.Ret, 2, 1⟩] 1 [] 0 [] [] 1
      2 1 rfl,
    c4_call_ret_semantics.2.2 [⟨.Call 1, 1, 1⟩, ⟨.Ret, 2, 1⟩] 0 [] [] 1 2 1
      rfl⟩

/-- C6 (amended): for `i32` inputs, `Push(x); Push(y); Sub; Print` outputs
the two's-complement `i32` result of `x − y` (`Sub` pops the last-pushed
`y` first, then `x`, and pushes `x − y` wrapped); the wrap is the identity
whenever `x − y` is representable in `i32`. -/
theorem c6_sub_order_wrapped (x y : Int)
    (hx1 : -(2 ^ 31) ≤ x) (hx2 : x < 2 ^ 31)
    (hy1 : -(2 ^ 31) ≤ y) (hy2 : y < 2 ^ 31) :
    execute 10 (subProg x y) = some (.ok [wrap32 (x - y)]) ∧
      (-(2 ^ 31) ≤ x - y → x - y < 2 ^ 31 → wrap32 (x - y) = x - y) := by
  constructor
  · simp [execute, subProg, execLoop]
  · intro h1 h2
    unfold wrap32
    omega

/-- C6 witness: `Push(5); Push(3); Sub; Print` outputs `[5 − 3] = [2]`. -/
theorem c6_sub_order_wrapped_witness :
    execute 10 (subProg 5 3) = some (.ok [wrap32 (5 - 3)]) ∧
      (-(2 ^ 31) ≤ (5 : Int) - 3 → (5 : Int) - 3 < 2 ^ 31 →
        wrap32 ((5 : Int) - 3) = (5 : Int) - 3) :=
  c6_sub_order_wrapped 5 3 (by decide) (by decide) (by decide) (by decide)

/-- C7 (amended): when the token loop ends with a non-empty resolution
stack, parse fails with a structural error built from the token at the
index popped from the *top* of the resolution stack — the most recently
opened (innermost) unmatched opener whenever token and instruction indices
coincide — carrying that token's display word, position and line. -/
theorem c7_unmatched_opener_error_from_stack_top
    (tokens : List Token) (i : Nat) (insts : List Instruction)
    (top : Nat) (stack' : List Nat) (fns : List (String × Nat))
    (tok : Token) (h : tokens.get? top = some tok) :
    parseAux tokens [] i insts (top :: stack') fns =
      .err (.Parse (tokDisplay tok.token_type) tok.pos tok.line
        ("This `" ++ tokDisplay tok.token_type ++ "` has no matching end")) := by
  rw [List.get?_eq_getElem?] at h
  simp [parseAux, h]

/-- C7 witness: the amended end-of-input rule applied to `c7toks` with the
inner opener index 1 on top of the resolution stack. -/
theorem c7_unmatched_opener_error_from_stack_top_witness :
    parseAux c7toks [] 2 [⟨.While 0, 1, 1⟩, ⟨.While 0, 5, 2⟩] [1, 0] [] =
      .err (.Parse "while" 5 2 "This `while` has no matching end") :=
  c7_unmatched_opener_error_from_stack_top c7toks 2
    [⟨.While 0, 1, 1⟩, ⟨.While 0, 5, 2⟩] 1 [0] [] ⟨.While, 5, 2⟩ rfl

/-- C8 (amended): executing a `Div` whose top-of-stack divisor is zero
makes the process panic with the host's division trap, in any machine
state; the interpreter does not surface a `DivisionByZero` error value. -/
theorem c8_div_zero_divisor_traps
    (insts : List Instruction) (fuel : Nat) (stk : List Int)
    (cs : List Nat) (out : List Int) (idx p l : Nat) (b : Int)
    (h : insts.get? idx = some ⟨.Div, p, l⟩) :
    execLoop insts (fuel + 1) (0 :: b :: stk) cs out idx =
      some (.panic "attempt to divide by zero") := by
  rw [List.get?_eq_getElem?] at h
  simp [execLoop, h]

/-- C8 witness: the divisor-zero trap at the concrete `c8prog` machine
state. -/
theorem c8_div_zero_divisor_traps_witness :
    execLoop c8prog.instructions 1 [0, 1] [] [] 2 =
      some (.panic "attempt to divide by zero") :=
  c8_div_zero_divisor_traps c8prog.instructions 0 [] [] [] 2 3 1 1 rfl

/-- Unfolding of `depthAfter` over a cons cell. -/
theorem depthAfter_cons (ins : Instruction) (rest : List Instruction) :
    depthAfter (ins :: rest) =
      instrDelta ins.instruction_type + depthAfter rest := by
  simp [depthAfter]

/-- Unfolding of `arityOkFrom` over a cons cell, in propositional form. -/
theorem arityOkFrom_cons (ins : Instruction) (rest : List Instruction)
    (d : Int) :
    arityOkFrom (ins :: rest) d = true ↔
      ((match instrArity ins.instruction_type with
        | some thr => thr ≤ d
        | none => True) ∧
        arityOkFrom rest (d + instrDelta ins.instruction_type) = true) := by
  cases h : instrArity ins.instruction_type <;> simp [arityOkFrom, h]

/-- `wrap32` is the identity on values already inside the `i32` range. -/
theorem wrap32_eq_self (n : Int) (h1 : -(2 ^ 31) ≤ n) (h2 : n < 2 ^ 31) :
    wrap32 n = n := by
  unfold wrap32
  omega

/-- No-overflow proviso for the checker's `i32` counter: starting from
depth `d`, the running simulated depth stays inside the `i32` range at
every point of the pass (the initial and final depths included). -/
def depthsInRange : List Instruction → Int → Bool
  | [], d => decide (-(2 ^ 31) ≤ d ∧ d < 2 ^ 31)
  | ins :: rest, d =>
      decide (-(2 ^ 31) ≤ d ∧ d < 2 ^ 31) &&
        depthsInRange rest (d + instrDelta ins.instruction_type)

/-- The current depth is in range whenever the proviso holds. -/
theorem depthsInRange_head (l : List Instruction) (d : Int)
    (h : depthsInRange l d = true) : -(2 ^ 31) ≤ d ∧ d < 2 ^ 31 := by
  cases l with
  | nil => simpa [depthsInRange] using h
  | cons a as =>
      simp only [depthsInRange, Bool.and_eq_true, decide_eq_true_eq] at h
      exact h.1

/-- Characterization of `checkAux` from any starting depth over
control-flow-free instructions, under the no-overflow proviso (which makes
each `wrap32` update of the `i32` counter exact): it accepts exactly when
every instruction with an arity requirement meets it and the final depth is
non-negative. -/
theorem checkAux_ok_iff :
    ∀ (l : List Instruction) (d : Int),
      (∀ ins ∈ l, cfFreeB ins.instruction_type = true) →
      depthsInRange l d = true →
      (checkAux l d = .ok () ↔
        (arityOkFrom l d = true ∧ 0 ≤ d + depthAfter l))
  | [], d, _, _ => by
      simp only [checkAux, arityOkFrom, depthAfter, List.map_nil,
        List.sum_nil, true_and]
      split_ifs with hd
      · simp only [true_iff]
        omega
      · constructor
        · intro hcontra
          exact absurd hcontra (by simp)
        · intro hcontra
          omega
  | ins :: rest, d, hcf, hdr => by
      have hins : cfFreeB ins.instruction_type = true :=
        hcf ins (List.mem_cons_self _ _)
      have hrest : ∀ i ∈ rest, cfFreeB i.instruction_type = true :=
        fun i hi => hcf i (List.mem_cons_of_mem _ hi)
      obtain ⟨it, p, l'⟩ := ins
      rw [arityOkFrom_cons, depthAfter_cons]
      cases it with
      | Push n =>
          have hdr' : depthsInRange rest (d + 1) = true := by
            simp only [depthsInRange, instrDelta, Bool.and_eq_true,
              decide_eq_true_eq] at hdr
            exact hdr.2
          have hd3 := depthsInRange_head rest (d + 1) hdr'
          have hw : wrap32 (d + 1) = d + 1 := wrap32_eq_self _ hd3.1 hd3.2
          have ih := checkAux_ok_iff rest (d + 1) hrest hdr'
          simp only [checkAux, instrArity, instrDelta, true_and, hw]
          rw [ih]
          constructor
          · rintro ⟨h1, h2⟩
            exact ⟨h1, by omega⟩
          · rintro ⟨h1, h2⟩
            exact ⟨h1, by omega⟩
      | Pop =>
          have hdr' : depthsInRange rest (d - 1) = true := by
            simp only [depthsInRange, instrDelta, Int.add_neg_one,
              Bool.and_eq_true, decide_eq_true_eq] at hdr
            exact hdr.2
          have hd3 := depthsInRange_head rest (d - 1) hdr'
          have hw : wrap32 (d - 1) = d - 1 := wrap32_eq_self _ hd3.1 hd3.2
          have ih := checkAux_ok_iff rest (d - 1) hrest hdr'
          simp only [checkAux, instrArity, instrDelta, Int.add_neg_one,
            true_and, hw]
          rw [ih]
          constructor
          · rintro ⟨h1, h2⟩
            exact ⟨h1, by omega⟩
          · rintro ⟨h1, h2⟩
            exact ⟨h1, by omega⟩
      | Add =>
          have hdr' : depthsInRange rest (d - 1) = true := by
            simp only [depthsInRange, instrDelta, Int.add_neg_one,
              Bool.and_eq_true, decide_eq_true_eq] at hdr
            exact hdr.2
          have hd3 := depthsInRange_head rest (d - 1) hdr'
          have hw : wrap32 (d - 1) = d - 1 := wrap32_eq_self _ hd3.1 hd3.2
          have ih := checkAux_ok_iff rest (d - 1) hrest hdr'
          simp only [checkAux, instrArity, instrDelta, Int.add_neg_one, hw]
          split_ifs with hd
          · constructor
            · intro hcontra
              exact absurd hcontra (by simp)
            · rintro ⟨⟨h0, _⟩, _⟩
              omega
          · rw [ih]
            constructor
            · rintro ⟨h1, h2⟩
              exact ⟨⟨by omega, h1⟩, by omega⟩
            · rintro ⟨⟨_, h1⟩, h2⟩
              exact ⟨h1, by omega⟩
      | Sub =>
          have hdr' : depthsInRange rest (d - 1) = true := by
            simp only [depthsInRange, instrDelta, Int.add_neg_one,
              Bool.and_eq_true, decide_eq_true_eq] at hdr
            exact hdr.2
          have hd3 := depthsInRange_head rest (d - 1) hdr'
          have hw : wrap32 (d - 1) = d - 1 := wrap32_eq_self _ hd3.1 hd3.2
          have ih := checkAux_ok_iff rest (d - 1) hrest hdr'
          simp only [checkAux, instrArity, instrDelta, Int.add_neg_one, hw]
          split_ifs with hd
          · constructor
            · intro hcontra
              exact absurd hcontra (by simp)
            · rintro ⟨⟨h0, _⟩, _⟩
              omega
          · rw [ih]
            constructor
            · rintro ⟨h1, h2⟩
              exact ⟨⟨by omega, h1⟩, by omega⟩
            · rintro ⟨⟨_, h1⟩, h2⟩
              exact ⟨h1, by omega⟩
      | Mul =>
          have hdr' : depthsInRange rest (d - 1) = true := by
            simp only [depthsInRange, instrDelta, Int.add_neg_one,
              Bool.and_eq_true, decide_eq_true_eq] at hdr
            exact hdr.2
          have hd3 := depthsInRange_head rest (d - 1) hdr'
          have hw : wrap32 (d - 1) = d - 1 := wrap32_eq_self _ hd3.1 hd3.2
          have ih := checkAux_ok_iff rest (d - 1) hrest hdr'
          simp only [checkAux, instrArity, instrDelta, Int.add_neg_one, hw]
          split_ifs with hd
          · constructor
            · intro hcontra
              exact absurd hcontra (by simp)
            · rintro ⟨⟨h0, _⟩, _⟩
              omega
          · rw [ih]
            constructor
            · rintro ⟨h1, h2⟩
              exact ⟨⟨by omega, h1⟩, by omega⟩
            · rintro ⟨⟨_, h1⟩, h2⟩
              exact ⟨h1, by omega⟩
      | Div =>
          have hdr' : depthsInRange rest (d - 1) = true := by
            simp only [depthsInRange, instrDelta, Int.add_neg_one,
              Bool.and_eq_true, decide_eq_true_eq] at hdr
            exact hdr.2
          have hd3 := depthsInRange_head rest (d - 1) hdr'
          have hw : wrap32 (d - 1) = d - 1 := wrap32_eq_self _ hd3.1 hd3.2
          have ih := checkAux_ok_iff rest (d - 1) hrest hdr'
          simp only [checkAux, instrArity, instrDelta, Int.add_neg_one, hw]
          split_ifs with hd
          · constructor
            · intro hcontra
              exact absurd hcontra (by simp)
            · rintro ⟨⟨h0, _⟩, _⟩
              omega
          · rw [ih]
            constructor
            · rintro ⟨h1, h2⟩
              exact ⟨⟨by omega, h1⟩, by omega⟩
            · rintro ⟨⟨_, h1⟩, h2⟩
              exact ⟨h1, by omega⟩
      | Print =>
          have hdr' : depthsInRange rest (d - 1) = true := by
            simp only [depthsInRange, instrDelta, Int.add_neg_one,
              Bool.and_eq_true, decide_eq_true_eq] at hdr
            exact hdr.2
          have hd3 := depthsInRange_head rest (d - 1) hdr'
          have hw : wrap32 (d - 1) = d - 1 := wrap32_eq_self _ hd3.1 hd3.2
          have ih := checkAux_ok_iff rest (d - 1) hrest hdr'
          simp only [checkAux, instrArity, instrDelta, Int.add_neg_one, hw]
          split_ifs with hd
          · constructor
            · intro hcontra
              exact absurd hcontra (by simp)
            · rintro ⟨⟨h0, _⟩, _⟩
              omega
          · rw [ih]
            constructor
            · rintro ⟨h1, h2⟩
              exact ⟨⟨by omega, h1⟩, by omega⟩
            · rintro ⟨⟨_, h1⟩, h2⟩
              exact ⟨h1, by omega⟩
      | Dup =>
          have hdr' : depthsInRange rest (d + 1) = true := by
            simp only [depthsInRange, instrDelta, Bool.and_eq_true,
              decide_eq_true_eq] at hdr
            exact hdr.2
          have hd3 := depthsInRange_head rest (d + 1) hdr'
          have hw : wrap32 (d + 1) = d + 1 := wrap32_eq_self _ hd3.1 hd3.2
          have ih := checkAux_ok_iff rest (d + 1) hrest hdr'
          simp only [checkAux, instrArity, instrDelta, hw]
          split_ifs with hd
          · constructor
            · intro hcontra
              exact absurd hcontra (by simp)
            · rintro ⟨⟨h0, _⟩, _⟩
              omega
          · rw [ih]
            constructor
            · rintro ⟨h1, h2⟩
              exact ⟨⟨by omega, h1⟩, by omega⟩
            · rintro ⟨⟨_, h1⟩, h2⟩
              exact ⟨h1, by omega⟩
      | Swap =>
          have hdr' : depthsInRange rest d = true := by
            simp only [depthsInRange, instrDelta, add_zero, Bool.and_eq_true,
              decide_eq_true_eq] at hdr
            exact hdr.2
          have ih := checkAux_ok_iff rest d hrest hdr'
          simp only [checkAux, instrArity, instrDelta, add_zero]
          split_ifs with hd
          · constructor
            · intro hcontra
              exact absurd hcontra (by simp)
            · rintro ⟨⟨h0, _⟩, _⟩
              omega
          · rw [ih]
            constructor
            · rintro ⟨h1, h2⟩
              exact ⟨⟨by omega, h1⟩, by omega⟩
            · rintro ⟨⟨_, h1⟩, h2⟩
              exact ⟨h1, by omega⟩
      | Rot =>
          have hdr' : depthsInRange rest d = true := by
            simp only [depthsInRange, instrDelta, add_zero, Bool.and_eq_true,
              decide_eq_true_eq] at hdr
            exact hdr.2
          have ih := checkAux_ok_iff rest d hrest hdr'
          simp only [checkAux, instrArity, instrDelta, add_zero]
          split_ifs with hd
          · constructor
            · intro hcontra
              exact absurd hcontra (by simp)
            · rintro ⟨⟨h0, _⟩, _⟩
              omega
          · rw [ih]
            constructor
            · rintro ⟨h1, h2⟩
              exact ⟨⟨by omega, h1⟩, by omega⟩
            · rintro ⟨⟨_, h1⟩, h2⟩
              exact ⟨h1, by omega⟩
      | Over =>
          have hdr' : depthsInRange rest d = true := by
            simp only [depthsInRange, instrDelta, add_zero, Bool.and_eq_true,
              decide_eq_true_eq] at hdr
            exact hdr.2
          have ih := checkAux_ok_iff rest d hrest hdr'
          simp only [checkAux, instrArity, instrDelta, add_zero]
          split_ifs with hd
          · constructor
            · intro hcontra
              exact absurd hcontra (by simp)
            · rintro ⟨⟨h0, _⟩, _⟩
              omega
          · rw [ih]
            constructor
            · rintro ⟨h1, h2⟩
              exact ⟨⟨by omega, h1⟩, by omega⟩
            · rintro ⟨⟨_, h1⟩, h2⟩
              exact ⟨h1, by omega⟩
      | Nip =>
          have hdr' : depthsInRange rest d = true := by
            simp only [depthsInRange, instrDelta, add_zero, Bool.and_eq_true,
              decide_eq_true_eq] at hdr
            exact hdr.2
          have ih := checkAux_ok_iff rest d hrest hdr'
          simp only [checkAux, instrArity, instrDelta, add_zero]
          split_ifs with hd
          · constructor
            · intro hcontra
              exact absurd hcontra (by simp)
            · rintro ⟨⟨h0, _⟩, _⟩
              omega
          · rw [ih]
            constructor
            · rintro ⟨h1, h2⟩
              exact ⟨⟨by omega, h1⟩, by omega⟩
            · rintro ⟨⟨_, h1⟩, h2⟩
              exact ⟨h1, by omega⟩
      | While t => simp [cfFreeB] at hins
      | EndWhile t => simp [cfFreeB] at hins
      | If t => simp [cfFreeB] at hins
      | Else t => simp [cfFreeB] at hins
      | EndIf => simp [cfFreeB] at hins
      | Call t => simp [cfFreeB] at hins
      | Ret => simp [cfFreeB] at hins

/-- C9 (amended): for every control-flow-free instruction sequence whose
running simulated depth stays inside the `i32` range at every point (the
checker's counter is an `i32`, which wraps in release builds and aborts in
debug builds at ±2^31, so the depth model is exact only without overflow),
`check_stack_safety` accepts exactly when every instruction with an arity
requirement meets it (1 for `Print`/`Dup`, 2 for binary arithmetic and
`Swap`/`Over`/`Nip`, 3 for `Rot`) and the final simulated depth is
non-negative.  A transient negative depth caused by `Pop` is not an
immediate failure (it is caught only by a later arity check or by the final
depth test). -/
theorem c9_checker_characterization (l : List Instruction)
    (hcf : ∀ ins ∈ l, cfFreeB ins.instruction_type = true)
    (hdr : depthsInRange l 0 = true) :
    check_stack_safety l = .ok () ↔
      (arityOkFrom l 0 = true ∧ 0 ≤ depthAfter l) := by
  have h := checkAux_ok_iff l 0 hcf hdr
  simpa [check_stack_safety] using h

/-- C9 witness: the characterization evaluated on the accepted straight-line
program `Push(1); Push(2); Add; Print`, whose running depth stays within
the `i32` range. -/
theorem c9_checker_characterization_witness :
    check_stack_safety
        [⟨.Push 1, 1, 1⟩, ⟨.Push 2, 2, 1⟩, ⟨.Add, 3, 1⟩, ⟨.Print, 4, 1⟩] =
        .ok () ↔
      (arityOkFrom
          [⟨.Push 1, 1, 1⟩, ⟨.Push 2, 2, 1⟩, ⟨.Add, 3, 1⟩, ⟨.Print, 4, 1⟩]
          0 = true ∧
        0 ≤ depthAfter
          [⟨.Push 1, 1, 1⟩, ⟨.Push 2, 2, 1⟩, ⟨.Add, 3, 1⟩,
            ⟨.Print, 4, 1⟩]) :=
  c9_checker_characterization
    [⟨.Push 1, 1, 1⟩, ⟨.Push 2, 2, 1⟩, ⟨.Add, 3, 1⟩, ⟨.Print, 4, 1⟩]
    (by decide) (by decide)

/-- C10: back-patching changes only the jump target.  `set_jmp_pos` on a
`While`/`EndWhile`/`If`/`Else` returns the same kind with the same `pos`
and `line`, differing only in the jump payload; and each back-patch `parse`
performs on an `end` token (`While` or `Else` opener) or an `else` token
(`If` opener) appends the closer and rewrites only the instruction at the
popped opener index, every other index of the instruction list being
unchanged. -/
theorem c10_backpatch_changes_only_target :
    (∀ (p l t j : Nat),
        Instruction.set_jmp_pos ⟨.While t, p, l⟩ j = .ok ⟨.While j, p, l⟩ ∧
        Instruction.set_jmp_pos ⟨.EndWhile t, p, l⟩ j =
          .ok ⟨.EndWhile j, p, l⟩ ∧
        Instruction.set_jmp_pos ⟨.If t, p, l⟩ j = .ok ⟨.If j, p, l⟩ ∧
        Instruction.set_jmp_pos ⟨.Else t, p, l⟩ j = .ok ⟨.Else j, p, l⟩) ∧
    (∀ (tokens rest : List Token) (tok : Token) (i : Nat)
        (insts : List Instruction) (top : Nat) (stack' : List Nat)
        (fns : List (String × Nat)) (op ol t : Nat),
        tok.token_type = .End →
        insts.get? top = some ⟨.While t, op, ol⟩ →
        (parseAux tokens (tok :: rest) i insts (top :: stack') fns =
            parseAux tokens rest (i + 1)
              ((insts ++ [(⟨.EndWhile top, tok.pos, tok.line⟩ : Instruction)]).set top
                ⟨.While i, op, ol⟩) stack' fns ∧
          ∀ j, top ≠ j →
            ((insts ++ [(⟨.EndWhile top, tok.pos, tok.line⟩ : Instruction)]).set top
              ⟨.While i, op, ol⟩).get? j =
              (insts ++ [(⟨.EndWhile top, tok.pos,
                tok.line⟩ : Instruction)]).get? j)) ∧
    (∀ (tokens rest : List Token) (tok : Token) (i : Nat)
        (insts : List Instruction) (top : Nat) (stack' : List Nat)
        (fns : List (String × Nat)) (op ol t : Nat),
        tok.token_type = .End →
        insts.get? top = some ⟨.Else t, op, ol⟩ →
        (parseAux tokens (tok :: rest) i insts (top :: stack') fns =
            parseAux tokens rest (i + 1)
              ((insts ++ [(⟨.EndIf, tok.pos, tok.line⟩ : Instruction)]).set top
                ⟨.Else i, op, ol⟩) stack' fns ∧
          ∀ j, top ≠ j →
            ((insts ++ [(⟨.EndIf, tok.pos, tok.line⟩ : Instruction)]).set top
              ⟨.Else i, op, ol⟩).get? j =
              (insts ++ [(⟨.EndIf, tok.pos,
                tok.line⟩ : Instruction)]).get? j)) ∧
    (∀ (tokens rest : List Token) (tok : Token) (i : Nat)
        (insts : List Instruction) (top : Nat) (stack' : List Nat)
        (fns : List (String × Nat)) (op ol t : Nat),
        tok.token_type = .Else →
        insts.get? top = some ⟨.If t, op, ol⟩ →
        (parseAux tokens (tok :: rest) i insts (top :: stack') fns =
            parseAux tokens rest (i + 1)
              ((insts.set top ⟨.If i, op, ol⟩) ++
                [(⟨.Else 0, tok.pos, tok.line⟩ : Instruction)])
              ((insts.set top ⟨.If i, op, ol⟩).length :: stack') fns ∧
          ∀ j, top ≠ j →
            (insts.set top ⟨.If i, op, ol⟩).get? j = insts.get? j)) := by
  refine ⟨?_, ?_, ?_, ?_⟩
  · intro p l t j
    exact ⟨rfl, rfl, rfl, rfl⟩
  · intro tokens rest tok i insts top stack' fns op ol t htok hop
    obtain ⟨tt, tp, tl⟩ := tok
    simp only at htok
    subst htok
    rw [List.get?_eq_getElem?] at hop
    constructor
    · simp [parseAux, hop, Instruction.set_jmp_pos]
    · intro j hj
      exact List.get?_set_ne _ _ hj
  · intro tokens rest tok i insts top stack' fns op ol t htok hop
    obtain ⟨tt, tp, tl⟩ := tok
    simp only at htok
    subst htok
    rw [List.get?_eq_getElem?] at hop
    constructor
    · simp [parseAux, hop, Instruction.set_jmp_pos]
    · intro j hj
      exact List.get?_set_ne _ _ hj
  · intro tokens rest tok i insts top stack' fns op ol t htok hop
    obtain ⟨tt, tp, tl⟩ := tok
    simp only at htok
    subst htok
    rw [List.get?_eq_getElem?] at hop
    constructor
    · simp [parseAux, hop, Instruction.set_jmp_pos]
    · intro j hj
      exact List.get?_set_ne _ _ hj

/-- C10 witness: the back-patch equations at concrete one-opener states —
an `end` closing a `While`, an `end` closing an `Else`, an `else` answering
an `If`, plus one `set_jmp_pos` instance and one frame instance at index
1. -/
theorem c10_backpatch_changes_only_target_witness :
    Instruction.set_jmp_pos ⟨.While 0, 1, 1⟩ 4 = .ok ⟨.While 4, 1, 1⟩ ∧
    parseAux [] [⟨.End, 5, 1⟩] 3 [⟨.While 0, 1, 1⟩] [0] [] =
      parseAux [] [] 4
        ((([(⟨.While 0, 1, 1⟩ : Instruction)]) ++ [(⟨.EndWhile 0, 5, 1⟩ : Instruction)]).set 0
          ⟨.While 3, 1, 1⟩) [] [] ∧
    ((([(⟨.While 0, 1, 1⟩ : Instruction)]) ++ [(⟨.EndWhile 0, 5, 1⟩ : Instruction)]).set 0
        ⟨.While 3, 1, 1⟩).get? 1 =
      (([(⟨.While 0, 1, 1⟩ : Instruction)]) ++
        [(⟨.EndWhile 0, 5, 1⟩ : Instruction)]).get? 1 ∧
    parseAux [] [⟨.End, 6, 1⟩] 4 [⟨.Else 0, 2, 1⟩] [0] [] =
      parseAux [] [] 5
        ((([(⟨.Else 0, 2, 1⟩ : Instruction)]) ++ [(⟨.EndIf, 6, 1⟩ : Instruction)]).set 0
          ⟨.Else 4, 2, 1⟩) [] [] ∧
    parseAux [] [⟨.Else, 7, 1⟩] 2 [⟨.If 0, 3, 1⟩] [0] [] =
      parseAux [] [] 3
        ((([(⟨.If 0, 3, 1⟩ : Instruction)]).set 0 ⟨.If 2, 3, 1⟩) ++ [(⟨.Else 0, 7, 1⟩ : Instruction)])
        (((([(⟨.If 0, 3, 1⟩ : Instruction)]).set 0 ⟨.If 2, 3, 1⟩)).length :: []) [] :=
  ⟨(c10_backpatch_changes_only_target.1 1 1 0 4).1,
    (c10_backpatch_changes_only_target.2.1 [] [] ⟨.End, 5, 1⟩ 3
      [⟨.While 0, 1, 1⟩] 0 [] [] 1 1 0 rfl rfl).1,
    (c10_backpatch_changes_only_target.2.1 [] [] ⟨.End, 5, 1⟩ 3
      [⟨.While 0, 1, 1⟩] 0 [] [] 1 1 0 rfl rfl).2 1 (by decide),
    (c10_backpatch_changes_only_target.2.2.1 [] [] ⟨.End, 6, 1⟩ 4
      [⟨.Else 0, 2, 1⟩] 0 [] [] 2 1 0 rfl rfl).1,
    (c10_backpatch_changes_only_target.2.2.2 [] [] ⟨.Else, 7, 1⟩ 2
      [⟨.If 0, 3, 1⟩] 0 [] [] 3 1 0 rfl rfl).1⟩

end Rorth
